import Mathlib

/-!
# Verification of the apinator server SDK signing / webhook core

Shallow embedding of the SDK's crypto core (`src/crypto.ts`), channel
authorizer (`src/auth.ts`), webhook verifier (`src/webhook.ts`) and the
pre-network validation phase of `Apinator.trigger` (`src/client.ts`).

Bytes are `Nat`s kept below 256 by construction (every byte produced by the
hash functions is reduced `% 256`); 32-bit words are `Nat`s reduced `% 2^32`
after every arithmetic step, mirroring two's-complement 32-bit arithmetic.

Node's library primitives that the source calls (`createHmac("sha256", ·)`,
`createHash("md5")`, `Buffer.from(·, "hex")`, `crypto.timingSafeEqual`,
`parseInt(·, 10)`, `String.prototype.toLowerCase/startsWith/slice`) are
embedded by their documented algorithms, executably, so that concrete runs
of the SDK functions can be evaluated inside proofs.
-/

namespace Apinator

/-! ## JS string primitives -/

/-- UTF-8 encoding of a single Unicode code point (Lean `Char` excludes
surrogates, as does well-formed JS string data). -/
def utf8Char (c : Char) : List Nat :=
  let n := c.toNat
  if n < 0x80 then [n]
  else if n < 0x800 then [0xC0 + n / 64, 0x80 + n % 64]
  else if n < 0x10000 then
    [0xE0 + n / 4096, 0x80 + (n / 64) % 64, 0x80 + n % 64]
  else
    [0xF0 + n / 262144, 0x80 + (n / 4096) % 64, 0x80 + (n / 64) % 64,
      0x80 + n % 64]

/-- UTF-8 byte sequence of a string (`update(s, "utf8")` in the source). -/
def utf8Encode (s : String) : List Nat :=
  s.data.flatMap utf8Char

/-- `String.prototype.toLowerCase` restricted to its ASCII action (all header
names handled by the SDK are ASCII). -/
def jsToLower (s : String) : String :=
  ⟨s.data.map Char.toLower⟩

/-- `String.prototype.startsWith(pre)`. -/
def strStartsWith (s pre : String) : Bool :=
  pre.data.isPrefixOf s.data

/-- `String.prototype.slice(n)` for a non-negative index (the source only
uses `slice(7)` after a successful ASCII-prefix check, where JS UTF-16
units and code points coincide). -/
def strDrop (s : String) (n : Nat) : String :=
  ⟨s.data.drop n⟩

/-! ## Hex encoding / decoding -/

/-- Lowercase hex digit for a nibble (`digest("hex")` output alphabet). -/
def hexDigit (n : Nat) : Char :=
  if n < 10 then Char.ofNat (48 + n)
  else if n < 16 then Char.ofNat (87 + n)
  else 'f'

/-- Lowercase hex character list of a byte list. -/
def hexEncodeChars (bs : List Nat) : List Char :=
  bs.flatMap fun b => [hexDigit (b / 16), hexDigit (b % 16)]

/-- Lowercase hex string of a byte list (`Buffer.prototype.toString("hex")`,
i.e. the `digest("hex")` output format). -/
def hexEncode (bs : List Nat) : String :=
  ⟨hexEncodeChars bs⟩

/-- Value of a hex character, accepting both cases, as `Buffer.from(·, "hex")`
does. -/
def hexVal (c : Char) : Option Nat :=
  if '0' ≤ c ∧ c ≤ '9' then some (c.toNat - 48)
  else if 'a' ≤ c ∧ c ≤ 'f' then some (c.toNat - 87)
  else if 'A' ≤ c ∧ c ≤ 'F' then some (c.toNat - 55)
  else none

/-- Hex decoding as performed by Node's `Buffer.from(s, "hex")`: characters
are consumed two at a time; decoding stops (truncates, never throws) at the
first pair that is not two hex digits, and a trailing lone character is
dropped. -/
def nodeHexDecodeAux : List Char → List Nat
  | c1 :: c2 :: rest =>
    match hexVal c1, hexVal c2 with
    | some h, some l => (16 * h + l) :: nodeHexDecodeAux rest
    | _, _ => []
  | _ => []

/-- `Buffer.from(s, "hex")` as a byte list. -/
def nodeHexDecode (s : String) : List Nat :=
  nodeHexDecodeAux s.data

/-- A string is fully valid hex: even length, every character a hex digit. -/
def isValidHexStr (s : String) : Bool :=
  s.data.length % 2 == 0 && s.data.all fun c => (hexVal c).isSome

/-! ## SHA-256 (FIPS 180-4), executable over byte lists -/

/-- 32-bit modulus. -/
def w32 : Nat := 4294967296

/-- 32-bit addition. -/
def add32 (x y : Nat) : Nat := (x + y) % w32

/-- 32-bit right rotation (operands are kept `< 2^32`). -/
def rotr32 (r x : Nat) : Nat :=
  ((x >>> r) ||| (x <<< (32 - r))) % w32

/-- 32-bit complement. -/
def not32 (x : Nat) : Nat := x ^^^ 0xffffffff

/-- SHA-256 round constants `K[0..63]` (FIPS 180-4 §4.2.2, in decimal). -/
def sha256K : List Nat :=
  [1116352408, 1899447441, 3049323471, 3921009573,
   961987163, 1508970993, 2453635748, 2870763221,
   3624381080, 310598401, 607225278, 1426881987,
   1925078388, 2162078206, 2614888103, 3248222580,
   3835390401, 4022224774, 264347078, 604807628,
   770255983, 1249150122, 1555081692, 1996064986,
   2554220882, 2821834349, 2952996808, 3210313671,
   3336571891, 3584528711, 113926993, 338241895,
   666307205, 773529912, 1294757372, 1396182291,
   1695183700, 1986661051, 2177026350, 2456956037,
   2730485921, 2820302411, 3259730800, 3345764771,
   3516065817, 3600352804, 4094571909, 275423344,
   430227734, 506948616, 659060556, 883997877,
   958139571, 1322822218, 1537002063, 1747873779,
   1955562222, 2024104815, 2227730452, 2361852424,
   2428436474, 2756734187, 3204031479, 3329325298]

/-- SHA-256 working state. -/
structure Sha256St where
  a : Nat
  b : Nat
  c : Nat
  d : Nat
  e : Nat
  f : Nat
  g : Nat
  h : Nat

/-- SHA-256 initial hash value `H(0)` (FIPS 180-4 §5.3.3, in decimal). -/
def sha256Init : Sha256St :=
  ⟨1779033703, 3144134277, 1013904242, 2773480762,
   1359893119, 2600822924, 528734635, 1541459225⟩

/-- Merkle–Damgård padding: append `0x80`, zero bytes to 56 mod 64, then the
bit length as 8 big-endian bytes. -/
def sha256Pad (msg : List Nat) : List Nat :=
  let len := msg.length
  let zeros := (64 + 56 - (len % 64 + 1)) % 64
  let bitLen := len * 8
  msg ++ [0x80] ++ List.replicate zeros 0 ++
    [(bitLen >>> 56) % 256, (bitLen >>> 48) % 256, (bitLen >>> 40) % 256,
     (bitLen >>> 32) % 256, (bitLen >>> 24) % 256, (bitLen >>> 16) % 256,
     (bitLen >>> 8) % 256, bitLen % 256]

/-- Split a byte list into its 64-byte chunks (the padded length is always a
multiple of 64). -/
def chunks64 (l : List Nat) : List (List Nat) :=
  (List.range (l.length / 64)).map fun i => (l.drop (64 * i)).take 64

/-- The 16 big-endian 32-bit words of a 64-byte block. -/
def blockWords (block : List Nat) : List Nat :=
  (List.range 16).map fun i =>
    (block.getD (4 * i) 0) * 16777216 + (block.getD (4 * i + 1) 0) * 65536 +
      (block.getD (4 * i + 2) 0) * 256 + block.getD (4 * i + 3) 0

/-- One message-schedule extension step (appends `W[t]`). -/
def scheduleStep (w : List Nat) : List Nat :=
  let n := w.length
  let s0 :=
    rotr32 7 (w.getD (n - 15) 0) ^^^ rotr32 18 (w.getD (n - 15) 0) ^^^
      (w.getD (n - 15) 0) >>> 3
  let s1 :=
    rotr32 17 (w.getD (n - 2) 0) ^^^ rotr32 19 (w.getD (n - 2) 0) ^^^
      (w.getD (n - 2) 0) >>> 10
  w ++ [add32 (add32 (w.getD (n - 16) 0) s0) (add32 (w.getD (n - 7) 0) s1)]

/-- Iterate the schedule extension. -/
def buildSchedule : Nat → List Nat → List Nat
  | 0, w => w
  | n + 1, w => buildSchedule n (scheduleStep w)

/-- One SHA-256 round. -/
def sha256Round (st : Sha256St) (kw : Nat × Nat) : Sha256St :=
  let S1 := rotr32 6 st.e ^^^ rotr32 11 st.e ^^^ rotr32 25 st.e
  let ch := (st.e &&& st.f) ^^^ (not32 st.e &&& st.g)
  let t1 := add32 (add32 (add32 st.h S1) (add32 ch kw.1)) kw.2
  let S0 := rotr32 2 st.a ^^^ rotr32 13 st.a ^^^ rotr32 22 st.a
  let mj := (st.a &&& st.b) ^^^ (st.a &&& st.c) ^^^ (st.b &&& st.c)
  let t2 := add32 S0 mj
  ⟨add32 t1 t2, st.a, st.b, st.c, add32 st.d t1, st.e, st.f, st.g⟩

/-- Compress one 64-byte block into the running state. -/
def sha256Compress (st : Sha256St) (block : List Nat) : Sha256St :=
  let w := buildSchedule 48 (blockWords block)
  let r := (sha256K.zip w).foldl sha256Round st
  ⟨add32 st.a r.a, add32 st.b r.b, add32 st.c r.c, add32 st.d r.d,
   add32 st.e r.e, add32 st.f r.f, add32 st.g r.g, add32 st.h r.h⟩

/-- Big-endian bytes of one 32-bit word. -/
def wordBytesBE (x : Nat) : List Nat :=
  [(x >>> 24) % 256, (x >>> 16) % 256, (x >>> 8) % 256, x % 256]

/-- SHA-256 digest (32 bytes) of a byte list. -/
def sha256Bytes (msg : List Nat) : List Nat :=
  let st := (chunks64 (sha256Pad msg)).foldl sha256Compress sha256Init
  [st.a, st.b, st.c, st.d, st.e, st.f, st.g, st.h].flatMap wordBytesBE

/-! ## MD5 (RFC 1321), executable over byte lists -/

/-- 32-bit left rotation. -/
def rotl32 (r x : Nat) : Nat :=
  ((x <<< r) ||| (x >>> (32 - r))) % w32

/-- MD5 sine-derived constants `T[1..64]`. -/
def md5K : List Nat :=
  [0xd76aa478, 0xe8c7b756, 0x242070db, 0xc1bdceee,
   0xf57c0faf, 0x4787c62a, 0xa8304613, 0xfd469501,
   0x698098d8, 0x8b44f7af, 0xffff5bb1, 0x895cd7be,
   0x6b901122, 0xfd987193, 0xa679438e, 0x49b40821,
   0xf61e2562, 0xc040b340, 0x265e5a51, 0xe9b6c7aa,
   0xd62f105d, 0x02441453, 0xd8a1e681, 0xe7d3fbc8,
   0x21e1cde6, 0xc33707d6, 0xf4d50d87, 0x455a14ed,
   0xa9e3e905, 0xfcefa3f8, 0x676f02d9, 0x8d2a4c8a,
   0xfffa3942, 0x8771f681, 0x6d9d6122, 0xfde5380c,
   0xa4beea44, 0x4bdecfa9, 0xf6bb4b60, 0xbebfbc70,
   0x289b7ec6, 0xeaa127fa, 0xd4ef3085, 0x04881d05,
   0xd9d4d039, 0xe6db99e5, 0x1fa27cf8, 0xc4ac5665,
   0xf4292244, 0x432aff97, 0xab9423a7, 0xfc93a039,
   0x655b59c3, 0x8f0ccc92, 0xffeff47d, 0x85845dd1,
   0x6fa87e4f, 0xfe2ce6e0, 0xa3014314, 0x4e0811a1,
   0xf7537e82, 0xbd3af235, 0x2ad7d2bb, 0xeb86d391]

/-- MD5 per-round rotation amounts. -/
def md5S : List Nat :=
  [7, 12, 17, 22, 7, 12, 17, 22, 7, 12, 17, 22, 7, 12, 17, 22,
   5, 9, 14, 20, 5, 9, 14, 20, 5, 9, 14, 20, 5, 9, 14, 20,
   4, 11, 16, 23, 4, 11, 16, 23, 4, 11, 16, 23, 4, 11, 16, 23,
   6, 10, 15, 21, 6, 10, 15, 21, 6, 10, 15, 21, 6, 10, 15, 21]

/-- MD5 working state. -/
structure Md5St where
  a : Nat
  b : Nat
  c : Nat
  d : Nat

/-- MD5 initial state. -/
def md5Init : Md5St :=
  ⟨0x67452301, 0xefcdab89, 0x98badcfe, 0x10325476⟩

/-- MD5 padding: append `0x80`, zero bytes to 56 mod 64, then the bit length
as 8 little-endian bytes. -/
def md5Pad (msg : List Nat) : List Nat :=
  let len := msg.length
  let zeros := (64 + 56 - (len % 64 + 1)) % 64
  let bitLen := len * 8
  msg ++ [0x80] ++ List.replicate zeros 0 ++
    [bitLen % 256, (bitLen >>> 8) % 256, (bitLen >>> 16) % 256,
     (bitLen >>> 24) % 256, (bitLen >>> 32) % 256, (bitLen >>> 40) % 256,
     (bitLen >>> 48) % 256, (bitLen >>> 56) % 256]

/-- The 16 little-endian 32-bit words of a 64-byte block. -/
def blockWordsLE (block : List Nat) : List Nat :=
  (List.range 16).map fun i =>
    block.getD (4 * i) 0 + (block.getD (4 * i + 1) 0) * 256 +
      (block.getD (4 * i + 2) 0) * 65536 + (block.getD (4 * i + 3) 0) * 16777216

/-- One MD5 operation (step `i` of 64) over the block words `m`. -/
def md5Round (m : List Nat) (st : Md5St) (i : Nat) : Md5St :=
  let f :=
    if i < 16 then (st.b &&& st.c) ||| (not32 st.b &&& st.d)
    else if i < 32 then (st.d &&& st.b) ||| (not32 st.d &&& st.c)
    else if i < 48 then st.b ^^^ st.c ^^^ st.d
    else st.c ^^^ (st.b ||| not32 st.d)
  let g :=
    if i < 16 then i
    else if i < 32 then (5 * i + 1) % 16
    else if i < 48 then (3 * i + 5) % 16
    else (7 * i) % 16
  let tmp := add32 (add32 st.a f) (add32 (md5K.getD i 0) (m.getD g 0))
  ⟨st.d, add32 st.b (rotl32 (md5S.getD i 0) tmp), st.b, st.c⟩

/-- Compress one 64-byte block into the running MD5 state. -/
def md5Compress (st : Md5St) (block : List Nat) : Md5St :=
  let m := blockWordsLE block
  let r := (List.range 64).foldl (md5Round m) st
  ⟨add32 st.a r.a, add32 st.b r.b, add32 st.c r.c, add32 st.d r.d⟩

/-- Little-endian bytes of one 32-bit word. -/
def wordBytesLE (x : Nat) : List Nat :=
  [x % 256, (x >>> 8) % 256, (x >>> 16) % 256, (x >>> 24) % 256]

/-- MD5 digest (16 bytes) of a byte list. -/
def md5Bytes (msg : List Nat) : List Nat :=
  let st := (chunks64 (md5Pad msg)).foldl md5Compress md5Init
  [st.a, st.b, st.c, st.d].flatMap wordBytesLE

/-! ## HMAC-SHA256 (RFC 2104), the algorithm behind
`createHmac("sha256", secret)` -/

/-- HMAC-SHA256 over byte lists (block size 64). -/
def hmacSha256Bytes (key msg : List Nat) : List Nat :=
  let k0 := if 64 < key.length then sha256Bytes key else key
  let kp := k0 ++ List.replicate (64 - k0.length) 0
  let ipadKey := kp.map (· ^^^ 0x36)
  let opadKey := kp.map (· ^^^ 0x5c)
  sha256Bytes (opadKey ++ sha256Bytes (ipadKey ++ msg))

/-- `createHmac("sha256", secret).update(msg, "utf8").digest("hex")`. -/
def hmacSha256Hex (secret msg : String) : String :=
  hexEncode (hmacSha256Bytes (utf8Encode secret) (utf8Encode msg))

/-! ## `src/crypto.ts` -/

/-- `md5Hex` from `src/crypto.ts`:
`createHash("md5").update(data, "utf8").digest("hex")`. -/
def md5Hex (data : String) : String :=
  hexEncode (md5Bytes (utf8Encode data))

/-- `signRequest` from `src/crypto.ts`. The `timestamp` parameter is a JS
number holding Unix seconds; it is embedded as an `Int` and rendered in
decimal by the template literal. -/
def signRequest (secret method path body : String) (timestamp : Int) : String :=
  let bodyMD5 := if body = "" then "" else md5Hex body
  let sigString :=
    toString timestamp ++ "\n" ++ method ++ "\n" ++ path ++ "\n" ++ bodyMD5
  hmacSha256Hex secret sigString

/-- JS truthiness of an optional string (`undefined` and `""` are falsy). -/
def jsTruthyOptStr : Option String → Bool
  | none => false
  | some s => !(s == "")

/-- `signChannel` from `src/crypto.ts`. The source selects the canonical
string with `channelData ? long : short`, i.e. by JS truthiness. -/
def signChannel (secret socketId channelName : String)
    (channelData : Option String) : String :=
  let sigString :=
    if jsTruthyOptStr channelData then
      socketId ++ ":" ++ channelName ++ ":" ++ channelData.getD ""
    else socketId ++ ":" ++ channelName
  hmacSha256Hex secret sigString

/-- `signWebhookPayload` from `src/crypto.ts`. -/
def signWebhookPayload (secret timestamp payload : String) : String :=
  hmacSha256Hex secret (timestamp ++ "." ++ payload)

/-! ## `src/auth.ts` -/

/-- `ChannelAuthResponse` from `src/types.ts`; the optional `channel_data`
field is `none` when absent. -/
structure ChannelAuthResponse where
  auth : String
  channel_data : Option String
deriving DecidableEq

/-- `authenticateChannel` from `src/auth.ts`. The source adds the
`channel_data` field exactly when `channelData !== undefined`. -/
def authenticateChannel (secret key socketId channelName : String)
    (channelData : Option String) : ChannelAuthResponse :=
  let signature := signChannel secret socketId channelName channelData
  { auth := key ++ ":" ++ signature
    channel_data := channelData }

/-! ## `src/webhook.ts` -/

/-- A Node header value: `string | string[] | undefined`. -/
inductive HeaderValue where
  | str (s : String)
  | arr (l : List String)
  | undef
deriving DecidableEq

/-- Resolution of one header value inside `getHeaderCaseInsensitive`:
a string is returned as is; for an array, `v.find(entry => typeof entry ===
"string")` returns the first entry (the declared element type is `string`,
so every entry is string-typed and `find` is `head?`); otherwise
`undefined`. -/
def headerValueFirstStr : HeaderValue → Option String
  | .str s => some s
  | .arr l => l.head?
  | .undef => none

/-- `getHeaderCaseInsensitive` from `src/webhook.ts`: scan the entries in
order and return (possibly `undefined`) at the first key matching
case-insensitively. -/
def getHeaderCaseInsensitive (headers : List (String × HeaderValue))
    (key : String) : Option String :=
  match headers with
  | [] => none
  | (k, v) :: rest =>
    if jsToLower k = jsToLower key then headerValueFirstStr v
    else getHeaderCaseInsensitive rest key

/-- The comparison loop of `crypto.timingSafeEqual` (a single pass OR-ing
the XOR of every byte pair), instrumented with the number of byte steps
performed: the result is `(accumulator, steps)`. -/
def ctCompare (a b : List Nat) : Nat × Nat :=
  (a.zip b).foldl (fun acc p => (acc.1 ||| (p.1 ^^^ p.2), acc.2 + 1)) (0, 0)

/-- `crypto.timingSafeEqual` on equal-length buffers: true iff the XOR
accumulator over all byte pairs is zero. -/
def timingSafeEqual (a b : List Nat) : Bool :=
  (ctCompare a b).1 == 0

/-- JS whitespace skipped by `parseInt` (ASCII part). -/
def isJsSpace (c : Char) : Bool :=
  c == ' ' || c == '\t' || c == '\n' || c == '\r' || c == '\x0b' || c == '\x0c'

/-- Value of a non-empty decimal digit list. -/
def digitsVal (ds : List Char) : Nat :=
  ds.foldl (fun acc c => 10 * acc + (c.toNat - 48)) 0

/-- `parseInt(s, 10)`: skip leading whitespace, one optional sign, then the
longest leading digit run; `NaN` (here `none`) when that run is empty.
Trailing garbage is ignored. The JS result is a float; inputs whose digit
runs exceed 2^53 lose precision there, which this `Int` model does not
reproduce (no claim depends on it). -/
def jsParseInt10 (s : String) : Option Int :=
  let cs := s.data.dropWhile isJsSpace
  let signRest : Bool × List Char :=
    match cs with
    | '-' :: r => (true, r)
    | '+' :: r => (false, r)
    | r => (false, r)
  let ds := signRest.2.takeWhile Char.isDigit
  if ds.isEmpty then none
  else
    let n : Int := (digitsVal ds : Nat)
    some (if signRest.1 then -n else n)

/-- The `"sha256="` prefix strip in `verifyWebhook`. -/
def stripSha256Prefix (s : String) : String :=
  if strStartsWith s "sha256=" then strDrop s 7 else s

/-- The signature-comparison stage of `verifyWebhook` (its final `try`
block): recompute the expected signature, hex-decode both, reject on length
mismatch, otherwise compare in constant time. `Buffer.from(·, "hex")` never
throws (it truncates, see `nodeHexDecode`), and `timingSafeEqual` is only
called on equal lengths, so the `catch` arm is unreachable (proved as
`verifyWebhookE_ok`). -/
def sigCheck (secret actualSignature timestamp body : String) : Bool :=
  let expectedSignature := signWebhookPayload secret timestamp body
  let actualBuffer := nodeHexDecode actualSignature
  let expectedBuffer := nodeHexDecode expectedSignature
  if actualBuffer.length ≠ expectedBuffer.length then false
  else timingSafeEqual actualBuffer expectedBuffer

/-- Whether `sigCheck` reaches the byte comparison (i.e. passes the length
guard in front of `timingSafeEqual`). -/
def sigCheckReachesCompare (secret actualSignature timestamp body : String) :
    Bool :=
  (nodeHexDecode actualSignature).length ==
    (nodeHexDecode (signWebhookPayload secret timestamp body)).length

/-- `verifyWebhook` from `src/webhook.ts`. The source reads the clock
internally (`Math.floor(Date.now() / 1000)`); that impure read is embedded
as the explicit final parameter `now`. An empty-string header value is
falsy in JS, so the `!signatureHeader` / `!timestamp` guards also reject
empty values. -/
def verifyWebhook (secret : String) (headers : List (String × HeaderValue))
    (body : String) (maxAge : Option Int) (now : Int) : Bool :=
  match getHeaderCaseInsensitive headers "x-realtime-signature" with
  | none => false
  | some signatureHeader =>
    if signatureHeader = "" then false
    else
      let actualSignature := stripSha256Prefix signatureHeader
      match getHeaderCaseInsensitive headers "x-realtime-timestamp" with
      | none => false
      | some timestamp =>
        if timestamp = "" then false
        else
          match maxAge with
          | none => sigCheck secret actualSignature timestamp body
          | some m =>
            match jsParseInt10 timestamp with
            | none => false
            | some t =>
              if now - t > m ∨ now - t < 0 then false
              else sigCheck secret actualSignature timestamp body

/-- `crypto.timingSafeEqual` with its length-mismatch exception made
explicit. -/
def timingSafeEqualE (a b : List Nat) : Except String Bool :=
  if a.length ≠ b.length then
    .error "ERR_CRYPTO_TIMING_SAFE_EQUAL_LENGTH"
  else .ok (timingSafeEqual a b)

/-- The final stage of `verifyWebhook` with exceptions propagated instead
of caught: used to show no exception can escape the `try` block. -/
def sigCheckE (secret actualSignature timestamp body : String) :
    Except String Bool :=
  let expectedSignature := signWebhookPayload secret timestamp body
  let actualBuffer := nodeHexDecode actualSignature
  let expectedBuffer := nodeHexDecode expectedSignature
  if actualBuffer.length ≠ expectedBuffer.length then .ok false
  else timingSafeEqualE actualBuffer expectedBuffer

/-- `verifyWebhook` with the `try/catch` removed and any exception
propagated. -/
def verifyWebhookE (secret : String) (headers : List (String × HeaderValue))
    (body : String) (maxAge : Option Int) (now : Int) : Except String Bool :=
  match getHeaderCaseInsensitive headers "x-realtime-signature" with
  | none => .ok false
  | some signatureHeader =>
    if signatureHeader = "" then .ok false
    else
      let actualSignature := stripSha256Prefix signatureHeader
      match getHeaderCaseInsensitive headers "x-realtime-timestamp" with
      | none => .ok false
      | some timestamp =>
        if timestamp = "" then .ok false
        else
          match maxAge with
          | none => sigCheckE secret actualSignature timestamp body
          | some m =>
            match jsParseInt10 timestamp with
            | none => .ok false
            | some t =>
              if now - t > m ∨ now - t < 0 then .ok false
              else sigCheckE secret actualSignature timestamp body

/-! ## `Apinator.trigger` (`src/client.ts`), pre-network phase -/

/-- `TriggerParams` from `src/types.ts`; optional fields are `none` when
absent. -/
structure TriggerParams where
  name : String
  channel : Option String := none
  channels : Option (List String) := none
  data : String
  socketId : Option String := none
deriving DecidableEq

/-- The request body object built by `trigger` (fields present iff
assigned). -/
structure TriggerBody where
  name : String
  data : String
  channel : Option String
  channels : Option (List String)
  socket_id : Option String
deriving DecidableEq

/-- Everything `trigger` does before any network I/O: either a
`ValidationError` is thrown, or an HTTP request with the given method,
path and body is handed to `this.request`. -/
inductive TriggerOutcome where
  | validationError (message : String)
  | request (method path : String) (body : TriggerBody)
deriving DecidableEq

/-- JS truthiness of an optional array value: any array is truthy (even
`[]`); only `undefined` is falsy. -/
def jsTruthyOptList : Option (List String) → Bool
  | none => false
  | some _ => true

/-- The validation and body-building phase of `Apinator.trigger`
(`src/client.ts`), up to and excluding the network call. The source guards
are `params.channel && params.channels` and
`!params.channel && !params.channels`, i.e. JS truthiness: an empty-string
`channel` is falsy, an empty-array `channels` is truthy. -/
def triggerPrepare (appId : String) (params : TriggerParams) :
    TriggerOutcome :=
  if jsTruthyOptStr params.channel && jsTruthyOptList params.channels then
    .validationError "Cannot specify both 'channel' and 'channels' parameters"
  else if !jsTruthyOptStr params.channel && !jsTruthyOptList params.channels
  then
    .validationError "Must specify either 'channel' or 'channels' parameter"
  else
    .request "POST" ("/apps/" ++ appId ++ "/events")
      { name := params.name
        data := params.data
        channel :=
          if jsTruthyOptStr params.channel then params.channel else none
        channels :=
          if jsTruthyOptList params.channels then params.channels else none
        socket_id :=
          if jsTruthyOptStr params.socketId then params.socketId else none }

/-! ## Supporting lemmas -/

theorem hexVal_hexDigit {n : Nat} (h : n < 16) : hexVal (hexDigit n) = some n := by
  interval_cases n <;> decide

theorem hexDigit_ne_s (n : Nat) : hexDigit n ≠ 's' := by
  intro hs
  by_cases h : n < 16
  · have h1 := hexVal_hexDigit h
    rw [hs] at h1
    have h2 : hexVal 's' = none := by decide
    rw [h2] at h1
    exact Option.noConfusion h1
  · have hf : hexDigit n = 'f' := by
      unfold hexDigit
      rw [if_neg (by omega), if_neg (by omega)]
    rw [hf] at hs
    exact absurd hs (by decide)

theorem wordBytesBE_lt (x : Nat) : ∀ b ∈ wordBytesBE x, b < 256 := by
  intro b hb
  simp only [wordBytesBE, List.mem_cons, List.not_mem_nil, or_false] at hb
  rcases hb with h | h | h | h <;> subst h <;> exact Nat.mod_lt _ (by norm_num)

theorem sha256Bytes_lt (msg : List Nat) : ∀ b ∈ sha256Bytes msg, b < 256 := by
  intro b hb
  simp only [sha256Bytes, List.mem_flatMap] at hb
  obtain ⟨w, _, hbw⟩ := hb
  exact wordBytesBE_lt w b hbw

theorem sha256Bytes_length (msg : List Nat) : (sha256Bytes msg).length = 32 := by
  simp [sha256Bytes, wordBytesBE]

theorem hmacSha256Bytes_lt (key msg : List Nat) :
    ∀ b ∈ hmacSha256Bytes key msg, b < 256 := by
  intro b hb
  exact sha256Bytes_lt _ b hb

theorem hmacSha256Bytes_length (key msg : List Nat) :
    (hmacSha256Bytes key msg).length = 32 :=
  sha256Bytes_length _

theorem hexEncodeChars_nil : hexEncodeChars [] = [] := rfl

theorem hexEncodeChars_cons (b : Nat) (bs : List Nat) :
    hexEncodeChars (b :: bs) =
      hexDigit (b / 16) :: hexDigit (b % 16) :: hexEncodeChars bs := by
  simp [hexEncodeChars]

theorem hexEncodeChars_length (bs : List Nat) :
    (hexEncodeChars bs).length = 2 * bs.length := by
  induction bs with
  | nil => rfl
  | cons b rest ih =>
    rw [hexEncodeChars_cons]
    simp only [List.length_cons, ih]
    omega

theorem nodeHexDecodeAux_encode_append (bs : List Nat) (cs : List Char)
    (h : ∀ b ∈ bs, b < 256) :
    nodeHexDecodeAux (hexEncodeChars bs ++ cs) = bs ++ nodeHexDecodeAux cs := by
  induction bs with
  | nil => simp [hexEncodeChars_nil]
  | cons b rest ih =>
    have hb : b < 256 := h b (by simp)
    have hdiv : b / 16 < 16 := by omega
    have hmod : b % 16 < 16 := Nat.mod_lt _ (by norm_num)
    rw [hexEncodeChars_cons]
    show nodeHexDecodeAux
        (hexDigit (b / 16) :: hexDigit (b % 16) :: (hexEncodeChars rest ++ cs)) =
      (b :: rest) ++ nodeHexDecodeAux cs
    rw [nodeHexDecodeAux, hexVal_hexDigit hdiv, hexVal_hexDigit hmod]
    rw [ih fun x hx => h x (by simp [hx])]
    simp [Nat.div_add_mod]

theorem nodeHexDecodeAux_nil : nodeHexDecodeAux [] = [] := rfl

theorem nodeHexDecode_encode (bs : List Nat) (h : ∀ b ∈ bs, b < 256) :
    nodeHexDecode (hexEncode bs) = bs := by
  have := nodeHexDecodeAux_encode_append bs [] h
  simpa [nodeHexDecode, hexEncode, nodeHexDecodeAux_nil] using this

/-- `a ||| b = 0` exactly when both sides are zero. -/
theorem lor_eq_zero_iff_both (a b : Nat) : a ||| b = 0 ↔ a = 0 ∧ b = 0 := by
  constructor
  · intro h
    constructor <;> apply Nat.eq_of_testBit_eq <;> intro i <;>
      · have hb := congrArg (Nat.testBit · i) h
        simp only [Nat.testBit_or, Nat.zero_testBit, Bool.or_eq_false_iff] at hb
        simp [hb.1, hb.2]
  · rintro ⟨rfl, rfl⟩
    simp

theorem ctFold_snd (ps : List (Nat × Nat)) (acc c : Nat) :
    ((ps.foldl (fun acc p => (acc.1 ||| (p.1 ^^^ p.2), acc.2 + 1)) (acc, c)).2)
      = c + ps.length := by
  induction ps generalizing acc c with
  | nil => rfl
  | cons p rest ih =>
    simp only [List.foldl_cons, ih, List.length_cons]
    omega

theorem ctFold_fst (ps : List (Nat × Nat)) (acc c : Nat) :
    ((ps.foldl (fun acc p => (acc.1 ||| (p.1 ^^^ p.2), acc.2 + 1)) (acc, c)).1 = 0)
      ↔ (acc = 0 ∧ ∀ p ∈ ps, p.1 = p.2) := by
  induction ps generalizing acc c with
  | nil => simp
  | cons p rest ih =>
    simp only [List.foldl_cons, ih, lor_eq_zero_iff_both, Nat.xor_eq_zero,
      List.mem_cons]
    constructor
    · rintro ⟨⟨ha, hp⟩, hrest⟩
      exact ⟨ha, fun q hq => hq.elim (fun he => he ▸ hp) (hrest q)⟩
    · rintro ⟨ha, hall⟩
      exact ⟨⟨ha, hall p (Or.inl rfl)⟩, fun q hq => hall q (Or.inr hq)⟩

theorem ctCompare_snd (a b : List Nat) :
    (ctCompare a b).2 = min a.length b.length := by
  rw [ctCompare, ctFold_snd]
  simp

theorem ctCompare_fst_eq_zero_iff (a b : List Nat) :
    ((ctCompare a b).1 = 0) ↔ ∀ p ∈ a.zip b, p.1 = p.2 := by
  rw [ctCompare, ctFold_fst]
  simp

theorem zip_forall_eq {a b : List Nat} (h : a.length = b.length) :
    (∀ p ∈ a.zip b, p.1 = p.2) ↔ a = b := by
  induction a generalizing b with
  | nil =>
    cases b with
    | nil => simp
    | cons y ys => simp at h
  | cons x xs ih =>
    cases b with
    | nil => simp at h
    | cons y ys =>
      simp only [List.length_cons, Nat.succ_inj] at h
      simp only [List.zip_cons_cons, List.mem_cons, List.cons.injEq]
      constructor
      · intro hall
        refine ⟨hall (x, y) (Or.inl rfl), ?_⟩
        exact (ih h).mp fun p hp => hall p (Or.inr hp)
      · rintro ⟨rfl, rfl⟩
        intro p hp
        rcases hp with rfl | hp
        · rfl
        · exact ((ih h).mpr rfl) p hp

theorem timingSafeEqual_iff {a b : List Nat} (h : a.length = b.length) :
    timingSafeEqual a b = true ↔ a = b := by
  rw [timingSafeEqual, beq_iff_eq, ctCompare_fst_eq_zero_iff, zip_forall_eq h]

theorem timingSafeEqual_self (l : List Nat) : timingSafeEqual l l = true :=
  (timingSafeEqual_iff rfl).mpr rfl

theorem hmacSha256Hex_data (s m : String) :
    (hmacSha256Hex s m).data =
      hexEncodeChars (hmacSha256Bytes (utf8Encode s) (utf8Encode m)) := rfl

theorem hmacSha256Hex_ne_empty (s m : String) : hmacSha256Hex s m ≠ "" := by
  intro h
  have hd := congrArg String.data h
  rw [hmacSha256Hex_data] at hd
  have hl := congrArg List.length hd
  rw [hexEncodeChars_length, hmacSha256Bytes_length] at hl
  simp at hl

theorem strStartsWith_hmac_sha256 (s m : String) :
    strStartsWith (hmacSha256Hex s m) "sha256=" = false := by
  have hlen := hmacSha256Bytes_length (utf8Encode s) (utf8Encode m)
  rw [strStartsWith, hmacSha256Hex_data]
  cases hbs : hmacSha256Bytes (utf8Encode s) (utf8Encode m) with
  | nil => rw [hbs] at hlen; simp at hlen
  | cons b rest =>
    rw [hexEncodeChars_cons]
    show List.isPrefixOf ('s' :: "ha256=".data) _ = false
    rw [List.isPrefixOf_cons₂]
    have : ('s' == hexDigit (b / 16)) = false :=
      beq_eq_false_iff_ne.mpr fun he => hexDigit_ne_s (b / 16) he.symm
    rw [this, Bool.false_and]

theorem stripSha256Prefix_append (x : String) :
    stripSha256Prefix ("sha256=" ++ x) = x := by
  rw [stripSha256Prefix]
  have hpre : strStartsWith ("sha256=" ++ x) "sha256=" = true := by
    rw [strStartsWith, String.data_append]
    exact List.isPrefixOf_iff_prefix.mpr (List.prefix_append _ _)
  rw [if_pos hpre, strDrop, String.data_append]
  show String.mk (("sha256=".data ++ x.data).drop "sha256=".data.length) = x
  rw [List.drop_left]

theorem stripSha256Prefix_hmac (s m : String) :
    stripSha256Prefix (hmacSha256Hex s m) = hmacSha256Hex s m := by
  rw [stripSha256Prefix, strStartsWith_hmac_sha256]
  simp

theorem sigCheck_self (secret ts body : String) :
    sigCheck secret (signWebhookPayload secret ts body) ts body = true := by
  unfold sigCheck
  simp [timingSafeEqual_self]

theorem getHeaderCI_cons_hit (k : String) (v : HeaderValue)
    (rest : List (String × HeaderValue)) (key : String)
    (h : jsToLower k = jsToLower key) :
    getHeaderCaseInsensitive ((k, v) :: rest) key = headerValueFirstStr v := by
  simp [getHeaderCaseInsensitive, h]

theorem getHeaderCI_cons_miss (k : String) (v : HeaderValue)
    (rest : List (String × HeaderValue)) (key : String)
    (h : jsToLower k ≠ jsToLower key) :
    getHeaderCaseInsensitive ((k, v) :: rest) key
      = getHeaderCaseInsensitive rest key := by
  simp [getHeaderCaseInsensitive, h]

theorem signWebhookPayload_eq (s t p : String) :
    signWebhookPayload s t p = hmacSha256Hex s (t ++ "." ++ p) := rfl

theorem signWebhookPayload_ne_empty (s t p : String) :
    signWebhookPayload s t p ≠ "" :=
  hmacSha256Hex_ne_empty s (t ++ "." ++ p)

theorem sha256_prepend_ne_empty (x : String) : "sha256=" ++ x ≠ "" := by
  intro h
  have hd := congrArg String.data h
  rw [String.data_append] at hd
  exact List.append_ne_nil_of_left_ne_nil (by decide) x.data hd

/-- Round-trip core: a two-entry lowercase header map carrying any value
that strips to the correct signature verifies with no `maxAge`. -/
theorem verifyWebhook_roundtrip_aux (secret ts body sigval : String)
    (now : Int) (hts : ts ≠ "") (hsv : sigval ≠ "")
    (hstrip : stripSha256Prefix sigval = signWebhookPayload secret ts body) :
    verifyWebhook secret
      [("x-realtime-signature", HeaderValue.str sigval),
       ("x-realtime-timestamp", HeaderValue.str ts)] body none now = true := by
  have h1 : getHeaderCaseInsensitive
      [("x-realtime-signature", HeaderValue.str sigval),
       ("x-realtime-timestamp", HeaderValue.str ts)] "x-realtime-signature"
      = some sigval :=
    getHeaderCI_cons_hit _ _ _ _ rfl
  have h2 : getHeaderCaseInsensitive
      [("x-realtime-signature", HeaderValue.str sigval),
       ("x-realtime-timestamp", HeaderValue.str ts)] "x-realtime-timestamp"
      = some ts := by
    rw [getHeaderCI_cons_miss _ _ _ _ (by decide)]
    exact getHeaderCI_cons_hit _ _ _ _ rfl
  rw [verifyWebhook, h1]
  simp only [if_neg hsv, h2, if_neg hts, hstrip]
  exact sigCheck_self secret ts body

/-! ## Sanity vectors for the embedded hash primitives -/

set_option maxRecDepth 40000 in
/-- FIPS 180-4 test vector: SHA-256 of the empty message. -/
theorem sha256_empty_vector :
    hexEncode (sha256Bytes (utf8Encode "")) =
      "e3b0c44298fc1c149afbf4c8996fb92427ae41e4649b934ca495991b7852b855" := by
  decide

set_option maxRecDepth 40000 in
/-- RFC 1321 test vector: MD5 of the empty message. -/
theorem md5_empty_vector : md5Hex "" = "d41d8cd98f00b204e9800998ecf8427e" := by
  decide

set_option maxRecDepth 40000 in
/-- RFC 1321 test vector: MD5 of `"abc"`. -/
theorem md5_abc_vector : md5Hex "abc" = "900150983cd24fb0d6963f7d28e17f72" := by
  decide

set_option maxRecDepth 40000 in
/-- Classic HMAC-SHA256 test vector (RFC 4231 style). -/
theorem hmac_fox_vector :
    hmacSha256Hex "key" "The quick brown fox jumps over the lazy dog" =
      "f7bc83f430538424b13298e6aa6fb143ef4d59a14946175997479dbc2d1a3cd8" := by
  decide

/-! ## Claims -/

set_option maxRecDepth 40000 in
/-- Claim C1, counterexample to the claim as stated: for the empty timestamp
string, the signature produced by `signWebhookPayload` is NOT accepted —
the verifier's `!timestamp` guard treats the empty header value as absent
and returns false. -/
theorem claim_C1_counterexample :
    verifyWebhook "k"
      [("x-realtime-signature", HeaderValue.str (signWebhookPayload "k" "" "b")),
       ("x-realtime-timestamp", HeaderValue.str "")] "b" none 0 = false := by
  decide

/-- Claim C1 (amended): webhook round-trip. For every secret, every
NON-EMPTY timestamp string `ts`, and every body, the signature produced by
`signWebhookPayload secret ts body`, placed in the `x-realtime-signature`
header either bare or with the literal `"sha256="` prefix, alongside `ts`
in `x-realtime-timestamp`, is accepted by `verifyWebhook` with no `maxAge`
(at any clock value). -/
theorem claim_C1 (secret ts body : String) (withPrefix : Bool) (now : Int)
    (hts : ts ≠ "") :
    verifyWebhook secret
      [("x-realtime-signature",
        HeaderValue.str
          (if withPrefix then "sha256=" ++ signWebhookPayload secret ts body
           else signWebhookPayload secret ts body)),
       ("x-realtime-timestamp", HeaderValue.str ts)] body none now = true := by
  cases withPrefix with
  | false =>
    simp only [Bool.false_eq_true, if_false]
    exact verifyWebhook_roundtrip_aux secret ts body _ now hts
      (signWebhookPayload_ne_empty secret ts body)
      (stripSha256Prefix_hmac secret (ts ++ "." ++ body))
  | true =>
    simp only [if_true]
    exact verifyWebhook_roundtrip_aux secret ts body _ now hts
      (sha256_prepend_ne_empty _)
      (stripSha256Prefix_append _)

set_option maxRecDepth 40000 in
/-- Claim C1 witness: the amended round-trip at a concrete input. -/
theorem claim_C1_witness :
    ("1700000000" : String) ≠ "" ∧
      verifyWebhook "my-secret-key"
        [("x-realtime-signature",
          HeaderValue.str
            (if true then
              "sha256=" ++
                signWebhookPayload "my-secret-key" "1700000000" "event-body"
             else signWebhookPayload "my-secret-key" "1700000000" "event-body")),
         ("x-realtime-timestamp", HeaderValue.str "1700000000")]
        "event-body" none 0 = true :=
  ⟨by decide,
   claim_C1 "my-secret-key" "1700000000" "event-body" true 0 (by decide)⟩

/-- Claim C10: calling `authenticateChannel` with an empty-string
`channelData` yields the same `auth` value as omitting it (the empty
payload is not part of the signed canonical string), while the response
still carries `channel_data = ""`. -/
theorem claim_C10 (secret key sock chan : String) :
    (authenticateChannel secret key sock chan (some "")).auth
        = (authenticateChannel secret key sock chan none).auth
      ∧ (authenticateChannel secret key sock chan (some "")).channel_data
        = some ""
      ∧ (authenticateChannel secret key sock chan none).channel_data = none :=
  ⟨rfl, rfl, rfl⟩

set_option maxRecDepth 40000 in
/-- Claim C5, counterexample to the claim as stated: with `channelData`
equal to the empty string, the signature is NOT the HMAC of
`"{socketId}:{channelName}:{channelData}"` — the source's truthiness test
treats `""` as absent, so the two-field string is signed instead. -/
theorem claim_C5_counterexample :
    (authenticateChannel "sec" "key" "sock" "chan" (some "")).auth
      ≠ "key" ++ ":" ++ hmacSha256Hex "sec" ("sock" ++ ":" ++ "chan" ++ ":" ++ "") := by
  decide

/-- Claim C5 (amended): `authenticateChannel` returns
`auth = "{key}:{signature}"` where the signature is the lowercase-hex
HMAC-SHA256 under `secret` of `"{socketId}:{channelName}"` when
`channelData` is absent OR the empty string, and of
`"{socketId}:{channelName}:{channelData}"` (channelData verbatim) when a
non-empty `channelData` is supplied; the `channel_data` field is present
unchanged exactly when `channelData` was supplied (even as the empty
string), and omitted otherwise. -/
theorem claim_C5 (secret key sock chan : String) (cd : Option String) :
    (authenticateChannel secret key sock chan cd).auth
        = key ++ ":" ++
            hmacSha256Hex secret
              (match cd with
               | none => sock ++ ":" ++ chan
               | some d =>
                 if d = "" then sock ++ ":" ++ chan
                 else sock ++ ":" ++ chan ++ ":" ++ d)
      ∧ (authenticateChannel secret key sock chan cd).channel_data = cd := by
  refine ⟨?_, rfl⟩
  cases cd with
  | none => rfl
  | some d =>
    by_cases hd : d = ""
    · subst hd; rfl
    · simp only [if_neg hd]
      show key ++ ":" ++ signChannel secret sock chan (some d) = _
      rw [signChannel]
      have : jsTruthyOptStr (some d) = true := by
        simp [jsTruthyOptStr, hd]
      rw [this]
      rfl

set_option maxRecDepth 40000 in
/-- Claim C6: `signRequest` is the HMAC-SHA256 hex of
`"{timestamp}\n{method}\n{path}\n{bodyDigest}"` with the empty-body special
case, the concrete conformance instance holds, and the empty-body digest is
genuinely the empty string and not the MD5 of zero bytes. -/
theorem claim_C6 (secret method path body : String) (ts : Int) :
    signRequest secret method path body ts
        = hmacSha256Hex secret
            (toString ts ++ "\n" ++ method ++ "\n" ++ path ++ "\n" ++
              (if body = "" then "" else md5Hex body))
      ∧ signRequest secret "GET" "/apps/123/channels" "" 1700000000
        = hmacSha256Hex secret "1700000000\nGET\n/apps/123/channels\n"
      ∧ signRequest "my-secret" "GET" "/p" "" 5
        ≠ hmacSha256Hex "my-secret" ("5\nGET\n/p\n" ++ md5Hex "") := by
  refine ⟨rfl, ?_, by decide⟩
  show hmacSha256Hex secret _ = hmacSha256Hex secret _
  exact congrArg (hmacSha256Hex secret) (by decide)

theorem nodeHexDecode_hmacHex (s m : String) :
    nodeHexDecode (hmacSha256Hex s m)
      = hmacSha256Bytes (utf8Encode s) (utf8Encode m) :=
  nodeHexDecode_encode _ (hmacSha256Bytes_lt _ _)

theorem nodeHexDecode_signWebhookPayload_length (secret ts body : String) :
    (nodeHexDecode (signWebhookPayload secret ts body)).length = 32 := by
  rw [signWebhookPayload_eq, nodeHexDecode_hmacHex, hmacSha256Bytes_length]

theorem nodeHexDecode_hmacHex_append (s m junk : String)
    (hj : nodeHexDecodeAux junk.data = []) :
    nodeHexDecode (hmacSha256Hex s m ++ junk)
      = hmacSha256Bytes (utf8Encode s) (utf8Encode m) := by
  rw [nodeHexDecode, String.data_append]
  show nodeHexDecodeAux
      (hexEncodeChars (hmacSha256Bytes (utf8Encode s) (utf8Encode m)) ++
        junk.data) = _
  rw [nodeHexDecodeAux_encode_append _ _ (hmacSha256Bytes_lt _ _), hj,
    List.append_nil]

/-- Claim C2: the comparison routine behind the verifier's signature check
performs one pass over every byte pair (its step count equals the common
length, independently of the byte values and of where any difference
occurs — no early exit), correctly decides equality, and `sigCheck` is
exactly this routine guarded by the non-secret length check. -/
theorem claim_C2 (a b : List Nat) (h : a.length = b.length) :
    (ctCompare a b).2 = a.length
      ∧ (timingSafeEqual a b = true ↔ a = b)
      ∧ ∀ secret sig ts body : String,
          sigCheck secret sig ts body
            = (decide ((nodeHexDecode sig).length
                  = (nodeHexDecode (signWebhookPayload secret ts body)).length)
                && timingSafeEqual (nodeHexDecode sig)
                    (nodeHexDecode (signWebhookPayload secret ts body))) := by
  refine ⟨?_, timingSafeEqual_iff h, ?_⟩
  · rw [ctCompare_snd, h, Nat.min_self]
  · intro secret sig ts body
    unfold sigCheck
    by_cases hl : (nodeHexDecode sig).length
        = (nodeHexDecode (signWebhookPayload secret ts body)).length
    · simp [hl]
    · simp [hl]

/-- Claim C2 witness: the constant-step comparison at concrete unequal
byte lists of equal length. -/
theorem claim_C2_witness :
    ([1, 2] : List Nat).length = ([1, 3] : List Nat).length
      ∧ ((ctCompare [1, 2] [1, 3]).2 = ([1, 2] : List Nat).length
        ∧ (timingSafeEqual [1, 2] [1, 3] = true ↔ ([1, 2] : List Nat) = [1, 3])
        ∧ ∀ secret sig ts body : String,
            sigCheck secret sig ts body
              = (decide ((nodeHexDecode sig).length
                    = (nodeHexDecode (signWebhookPayload secret ts body)).length)
                  && timingSafeEqual (nodeHexDecode sig)
                      (nodeHexDecode (signWebhookPayload secret ts body)))) :=
  ⟨rfl, claim_C2 [1, 2] [1, 3] rfl⟩

set_option maxRecDepth 40000 in
/-- Claim C3, counterexample to the claim as stated: a claimed signature
that is NOT valid hex (the correct 64-hex signature followed by `"zz"`) is
nevertheless accepted, because `Buffer.from(·, "hex")` truncates at the
first invalid pair instead of failing. -/
theorem claim_C3_counterexample :
    verifyWebhook "k"
        [("x-realtime-signature",
          HeaderValue.str (signWebhookPayload "k" "1700000000" "body" ++ "zz")),
         ("x-realtime-timestamp", HeaderValue.str "1700000000")]
        "body" none 0 = true
      ∧ isValidHexStr (signWebhookPayload "k" "1700000000" "body" ++ "zz")
        = false := by
  constructor <;> decide

/-- Claim C3 (amended): hex decoding in the verifier never fails — it
truncates at the first invalid pair. Whenever the truncated decode of the
(prefix-stripped) claimed signature has byte length other than 32 (the
expected signature always decodes to exactly 32 bytes), the verdict is
false and the byte comparison is never reached; this is what rejects
odd-length and garbage claimed signatures. A claimed value whose hex
prefix decodes to the correct 32 bytes is accepted even with trailing
non-hex garbage. -/
theorem claim_C3 (secret body : String) (hs : List (String × HeaderValue))
    (now : Int) (sig ts : String)
    (hsig : getHeaderCaseInsensitive hs "x-realtime-signature" = some sig)
    (hts : getHeaderCaseInsensitive hs "x-realtime-timestamp" = some ts)
    (hlen : (nodeHexDecode (stripSha256Prefix sig)).length ≠ 32) :
    verifyWebhook secret hs body none now = false
      ∧ sigCheck secret (stripSha256Prefix sig) ts body = false
      ∧ sigCheckReachesCompare secret (stripSha256Prefix sig) ts body = false
      ∧ ∀ junk : String, nodeHexDecodeAux junk.data = [] →
          sigCheck secret (signWebhookPayload secret ts body ++ junk) ts body
            = true := by
  have hexp := nodeHexDecode_signWebhookPayload_length secret ts body
  have hne : (nodeHexDecode (stripSha256Prefix sig)).length
      ≠ (nodeHexDecode (signWebhookPayload secret ts body)).length := by
    rw [hexp]; exact hlen
  have hchk : sigCheck secret (stripSha256Prefix sig) ts body = false := by
    unfold sigCheck
    rw [if_pos hne]
  have hreach :
      sigCheckReachesCompare secret (stripSha256Prefix sig) ts body = false := by
    unfold sigCheckReachesCompare
    exact beq_eq_false_iff_ne.mpr hne
  refine ⟨?_, hchk, hreach, ?_⟩
  · rw [verifyWebhook, hsig]
    by_cases hse : sig = ""
    · simp [hse]
    · by_cases htse : ts = ""
      · simp [hse, hts, htse]
      · simp only [if_neg hse, hts, if_neg htse]
        exact hchk
  · intro junk hj
    unfold sigCheck
    rw [signWebhookPayload_eq]
    simp only [nodeHexDecode_hmacHex_append _ _ _ hj, nodeHexDecode_hmacHex]
    rw [if_neg (by simp)]
    exact timingSafeEqual_self _

/-- Claim C3 witness: a short non-hex claimed signature is rejected without
reaching the comparison. -/
theorem claim_C3_witness :
    getHeaderCaseInsensitive
        [("x-realtime-signature", HeaderValue.str "abc"),
         ("x-realtime-timestamp", HeaderValue.str "1")]
        "x-realtime-signature" = some "abc"
      ∧ getHeaderCaseInsensitive
        [("x-realtime-signature", HeaderValue.str "abc"),
         ("x-realtime-timestamp", HeaderValue.str "1")]
        "x-realtime-timestamp" = some "1"
      ∧ (nodeHexDecode (stripSha256Prefix "abc")).length ≠ 32
      ∧ (verifyWebhook "k"
          [("x-realtime-signature", HeaderValue.str "abc"),
           ("x-realtime-timestamp", HeaderValue.str "1")] "b" none 0 = false
        ∧ sigCheck "k" (stripSha256Prefix "abc") "1" "b" = false
        ∧ sigCheckReachesCompare "k" (stripSha256Prefix "abc") "1" "b" = false
        ∧ ∀ junk : String, nodeHexDecodeAux junk.data = [] →
            sigCheck "k" (signWebhookPayload "k" "1" "b" ++ junk) "1" "b"
              = true) :=
  ⟨by decide, by decide, by decide,
   claim_C3 "k" "b"
     [("x-realtime-signature", HeaderValue.str "abc"),
      ("x-realtime-timestamp", HeaderValue.str "1")]
     0 "abc" "1" (by decide) (by decide) (by decide)⟩

theorem verifyWebhook_lookup_none (secret : String)
    (hs : List (String × HeaderValue)) (body : String) (maxAge : Option Int)
    (now : Int)
    (hsig : getHeaderCaseInsensitive hs "x-realtime-signature" = none) :
    verifyWebhook secret hs body maxAge now = false := by
  rw [verifyWebhook, hsig]

theorem verifyWebhook_some_eq (secret body sig ts : String)
    (hs : List (String × HeaderValue)) (maxAge : Option Int) (now : Int)
    (hsig : getHeaderCaseInsensitive hs "x-realtime-signature" = some sig)
    (hts : getHeaderCaseInsensitive hs "x-realtime-timestamp" = some ts) :
    verifyWebhook secret hs body maxAge now
      = (if sig = "" then false
         else if ts = "" then false
         else
           match maxAge with
           | none => sigCheck secret (stripSha256Prefix sig) ts body
           | some m =>
             match jsParseInt10 ts with
             | none => false
             | some t =>
               if now - t > m ∨ now - t < 0 then false
               else sigCheck secret (stripSha256Prefix sig) ts body) := by
  rw [verifyWebhook, hsig]
  by_cases hse : sig = ""
  · simp [hse]
  · simp only [if_neg hse, hts]

set_option maxRecDepth 40000 in
/-- Claim C4: freshness checking. When `maxAgeSeconds` is supplied, the
timestamp header is parsed base-10; parse failure gives verdict false; with
`age = now - parsed`, the verdict is false whenever `age > maxAge` or
`age < 0`, while `0 ≤ age ≤ maxAge` leaves the verdict identical to the
no-`maxAge` call. When `maxAgeSeconds` is omitted, freshness checking is
skipped and the raw timestamp string is used verbatim in the signature
recomputation. -/
theorem claim_C4 (secret body : String) (hs : List (String × HeaderValue))
    (m now : Int) (ts : String)
    (hts : getHeaderCaseInsensitive hs "x-realtime-timestamp" = some ts) :
    (jsParseInt10 ts = none → verifyWebhook secret hs body (some m) now = false)
      ∧ (∀ t : Int, jsParseInt10 ts = some t → (now - t > m ∨ now - t < 0) →
          verifyWebhook secret hs body (some m) now = false)
      ∧ (∀ t : Int, jsParseInt10 ts = some t → 0 ≤ now - t → now - t ≤ m →
          verifyWebhook secret hs body (some m) now
            = verifyWebhook secret hs body none now)
      ∧ (∀ sig : String,
          getHeaderCaseInsensitive hs "x-realtime-signature" = some sig →
          sig ≠ "" → ts ≠ "" →
          verifyWebhook secret hs body none now
            = sigCheck secret (stripSha256Prefix sig) ts body) := by
  refine ⟨?_, ?_, ?_, ?_⟩
  · intro hp
    cases hsg : getHeaderCaseInsensitive hs "x-realtime-signature" with
    | none => exact verifyWebhook_lookup_none _ _ _ _ _ hsg
    | some sig =>
      rw [verifyWebhook_some_eq secret body sig ts hs (some m) now hsg hts, hp]
      by_cases hse : sig = ""
      · simp [hse]
      · by_cases htse : ts = "" <;> simp [hse, htse]
  · intro t hp hage
    cases hsg : getHeaderCaseInsensitive hs "x-realtime-signature" with
    | none => exact verifyWebhook_lookup_none _ _ _ _ _ hsg
    | some sig =>
      rw [verifyWebhook_some_eq secret body sig ts hs (some m) now hsg hts, hp]
      by_cases hse : sig = ""
      · simp [hse]
      · by_cases htse : ts = ""
        · simp [hse, htse]
        · rw [if_neg hse, if_neg htse]
          exact if_pos hage
  · intro t hp h0 hm
    cases hsg : getHeaderCaseInsensitive hs "x-realtime-signature" with
    | none =>
      rw [verifyWebhook_lookup_none _ _ _ _ _ hsg,
        verifyWebhook_lookup_none _ _ _ _ _ hsg]
    | some sig =>
      rw [verifyWebhook_some_eq secret body sig ts hs (some m) now hsg hts,
        verifyWebhook_some_eq secret body sig ts hs none now hsg hts, hp]
      have hnot : ¬(now - t > m ∨ now - t < 0) := by omega
      by_cases hse : sig = ""
      · simp [hse]
      · by_cases htse : ts = ""
        · simp [hse, htse]
        · rw [if_neg hse, if_neg htse, if_neg hse, if_neg htse]
          show (if now - t > m ∨ now - t < 0 then false
              else sigCheck secret (stripSha256Prefix sig) ts body)
            = sigCheck secret (stripSha256Prefix sig) ts body
          exact if_neg hnot
  · intro sig hsg hse htse
    rw [verifyWebhook_some_eq secret body sig ts hs none now hsg hts]
    simp [hse, htse]

set_option maxRecDepth 40000 in
/-- Claim C4 witness: the freshness conjunction at a concrete header map,
`maxAge = 50`, `now = 120`. -/
theorem claim_C4_witness :
    getHeaderCaseInsensitive
        [("x-realtime-timestamp", HeaderValue.str "100"),
         ("x-realtime-signature", HeaderValue.str "ab")]
        "x-realtime-timestamp" = some "100"
      ∧ ((jsParseInt10 "100" = none →
          verifyWebhook "k"
            [("x-realtime-timestamp", HeaderValue.str "100"),
             ("x-realtime-signature", HeaderValue.str "ab")] "b" (some 50) 120
            = false)
        ∧ (∀ t : Int, jsParseInt10 "100" = some t →
            (120 - t > 50 ∨ 120 - t < 0) →
            verifyWebhook "k"
              [("x-realtime-timestamp", HeaderValue.str "100"),
               ("x-realtime-signature", HeaderValue.str "ab")] "b" (some 50) 120
              = false)
        ∧ (∀ t : Int, jsParseInt10 "100" = some t → 0 ≤ 120 - t →
            120 - t ≤ 50 →
            verifyWebhook "k"
              [("x-realtime-timestamp", HeaderValue.str "100"),
               ("x-realtime-signature", HeaderValue.str "ab")] "b" (some 50) 120
              = verifyWebhook "k"
                [("x-realtime-timestamp", HeaderValue.str "100"),
                 ("x-realtime-signature", HeaderValue.str "ab")] "b" none 120)
        ∧ (∀ sig : String,
            getHeaderCaseInsensitive
              [("x-realtime-timestamp", HeaderValue.str "100"),
               ("x-realtime-signature", HeaderValue.str "ab")]
              "x-realtime-signature" = some sig →
            sig ≠ "" → ("100" : String) ≠ "" →
            verifyWebhook "k"
              [("x-realtime-timestamp", HeaderValue.str "100"),
               ("x-realtime-signature", HeaderValue.str "ab")] "b" none 120
              = sigCheck "k" (stripSha256Prefix sig) "100" "b")) :=
  ⟨by decide,
   claim_C4 "k" "b"
     [("x-realtime-timestamp", HeaderValue.str "100"),
      ("x-realtime-signature", HeaderValue.str "ab")]
     50 120 "100" (by decide)⟩

theorem sigCheckE_ok (secret a ts body : String) :
    sigCheckE secret a ts body = Except.ok (sigCheck secret a ts body) := by
  unfold sigCheckE sigCheck timingSafeEqualE
  by_cases h : (nodeHexDecode a).length
      = (nodeHexDecode (signWebhookPayload secret ts body)).length
  · simp [h]
  · simp [h]

theorem hmacSha256Hex_strlen (s m : String) : (hmacSha256Hex s m).length = 64 := by
  show (hmacSha256Hex s m).data.length = 64
  rw [hmacSha256Hex_data, hexEncodeChars_length, hmacSha256Bytes_length]

/-- Claim C7: totality. `verifyWebhook` never lets an exception escape —
the exception-propagating variant `verifyWebhookE` always returns
`Except.ok` of the boolean verdict (so the source's `catch` arm is dead
code) — and the three signing operations always succeed, producing a
64-character hex digest for all well-typed inputs. -/
theorem claim_C7 (secret : String) (hs : List (String × HeaderValue))
    (body : String) (maxAge : Option Int) (now t : Int)
    (method path reqBody sock chan wts wbody : String) (cd : Option String) :
    verifyWebhookE secret hs body maxAge now
        = Except.ok (verifyWebhook secret hs body maxAge now)
      ∧ (signRequest secret method path reqBody t).length = 64
      ∧ (signChannel secret sock chan cd).length = 64
      ∧ (signWebhookPayload secret wts wbody).length = 64 := by
  refine ⟨?_, hmacSha256Hex_strlen _ _, hmacSha256Hex_strlen _ _,
    hmacSha256Hex_strlen _ _⟩
  rw [verifyWebhookE, verifyWebhook]
  cases getHeaderCaseInsensitive hs "x-realtime-signature" with
  | none => rfl
  | some sig =>
    by_cases hse : sig = ""
    · simp [hse]
    · simp only [if_neg hse]
      cases getHeaderCaseInsensitive hs "x-realtime-timestamp" with
      | none => rfl
      | some ts =>
        by_cases htse : ts = ""
        · simp [htse]
        · simp only [if_neg htse]
          cases maxAge with
          | none => exact sigCheckE_ok secret (stripSha256Prefix sig) ts body
          | some m =>
            cases jsParseInt10 ts with
            | none => rfl
            | some t2 =>
              show (if now - t2 > m ∨ now - t2 < 0 then Except.ok false
                    else sigCheckE secret (stripSha256Prefix sig) ts body)
                  = Except.ok (if now - t2 > m ∨ now - t2 < 0 then false
                      else sigCheck secret (stripSha256Prefix sig) ts body)
              by_cases hage : now - t2 > m ∨ now - t2 < 0
              · rw [if_pos hage, if_pos hage]
              · rw [if_neg hage, if_neg hage]
                exact sigCheckE_ok secret (stripSha256Prefix sig) ts body

set_option maxRecDepth 40000 in
/-- Claim C8, counterexample to the claim as stated: the verifier's current
time comes from an internal `Date.now()` read, not from a caller-supplied
argument — two calls with identical explicit arguments but different clock
readings return different verdicts when `maxAge` is supplied. -/
theorem claim_C8_counterexample :
    verifyWebhook "k"
        [("x-realtime-signature",
          HeaderValue.str (signWebhookPayload "k" "100" "b")),
         ("x-realtime-timestamp", HeaderValue.str "100")] "b" (some 50) 100
        = true
      ∧ verifyWebhook "k"
        [("x-realtime-signature",
          HeaderValue.str (signWebhookPayload "k" "100" "b")),
         ("x-realtime-timestamp", HeaderValue.str "100")] "b" (some 50) 200
        = false := by
  constructor <;> decide

/-- Claim C8 (amended): the verifier reads the clock internally
(`Date.now()`, floored to seconds), so the verdict is a function of the
explicit arguments together with that reading; when `maxAgeSeconds` is
omitted the clock is never consulted and the verdict is a deterministic
function of the explicit arguments alone. -/
theorem claim_C8 (secret : String) (hs : List (String × HeaderValue))
    (body : String) (now now2 : Int) :
    verifyWebhook secret hs body none now
      = verifyWebhook secret hs body none now2 := rfl

set_option maxRecDepth 40000 in
/-- Claim C9, counterexample to the claim as stated: with both selector
fields supplied (`channel` present as the empty string, `channels` present
and non-empty), `trigger` does NOT fail with a `ValidationError`; the
source tests JS truthiness, the empty-string `channel` is falsy, and a
request is prepared. -/
theorem claim_C9_counterexample :
    triggerPrepare "app"
        { name := "e", channel := some "", channels := some ["c"],
          data := "d" }
      = TriggerOutcome.request "POST" "/apps/app/events"
          { name := "e", data := "d", channel := none,
            channels := some ["c"], socket_id := none } := by
  decide

/-- Claim C9 (amended): `trigger`'s mutually-exclusive validation is by JS
truthiness — `channel` counts as set when present AND non-empty, `channels`
counts as set when present (any array, even empty). If both are truthy, or
neither is, a `ValidationError` is raised before any network request;
exactly one truthy selector leads to the network request being attempted
with the built body. -/
theorem claim_C9 (appId : String) (p : TriggerParams) :
    (jsTruthyOptStr p.channel = true → jsTruthyOptList p.channels = true →
      triggerPrepare appId p
        = .validationError
            "Cannot specify both 'channel' and 'channels' parameters")
      ∧ (jsTruthyOptStr p.channel = false → jsTruthyOptList p.channels = false →
        triggerPrepare appId p
          = .validationError
              "Must specify either 'channel' or 'channels' parameter")
      ∧ (jsTruthyOptStr p.channel ≠ jsTruthyOptList p.channels →
        triggerPrepare appId p
          = .request "POST" ("/apps/" ++ appId ++ "/events")
              { name := p.name
                data := p.data
                channel :=
                  if jsTruthyOptStr p.channel then p.channel else none
                channels :=
                  if jsTruthyOptList p.channels then p.channels else none
                socket_id :=
                  if jsTruthyOptStr p.socketId then p.socketId else none }) := by
  refine ⟨?_, ?_, ?_⟩ <;> unfold triggerPrepare
  · intro h1 h2
    rw [h1, h2]
    rfl
  · intro h1 h2
    rw [h1, h2]
    rfl
  · intro hne
    cases hch : jsTruthyOptStr p.channel <;>
      cases hchs : jsTruthyOptList p.channels <;>
        simp_all

/-- Claim C9 witness: a single truthy selector leads to a prepared request. -/
theorem claim_C9_witness :
    triggerPrepare "a" { name := "e", channel := some "c", data := "d" }
      = TriggerOutcome.request "POST" "/apps/a/events"
          { name := "e", data := "d", channel := some "c",
            channels := none, socket_id := none } :=
  (claim_C9 "a" { name := "e", channel := some "c", data := "d" }).2.2
    (by decide)

end Apinator

